import Mathlib

/-!
Shallow embedding of MoveIt's OMPL planning-context allocation layer
(`moveit/ompl_interface/planning_context_manager.h`): the
`MultiQueryPlannerAllocator` (planner-instance caching and the reserved
persistence options) and the `PlanningContextManager` context cache.

Machine state (the allocator's maps, pointer identity of heap objects) is
made explicit: every constructed planner instance consumes a fresh numeric
id, modelling the address returned by `new`; `shared_ptr` values are
`Option Planner` with `none` for the null pointer; a thrown
`boost::bad_lexical_cast` is modelled by an `Except` error.
-/

namespace OmplInterface

/-- Exploration-graph planner data (`ompl::base::PlannerData`), treated as an
opaque blob of content; a default-constructed object holds the empty blob. -/
abbrev PlannerData := List Nat

/-- Lookup in an association list with unique keys, mirroring
`std::map::find` (the first matching entry is the entry for `k`). -/
def mapFind {κ α : Type} [DecidableEq κ] : List (κ × α) → κ → Option α
  | [], _ => none
  | e :: es, k => if e.1 = k then some e.2 else mapFind es k

/-- Removal of a key, mirroring `std::map::erase` of the iterator found for
that key (keys are unique in a `std::map`, so removing every entry under the
key is equivalent). -/
def mapErase {κ α : Type} [DecidableEq κ] (k : κ) : List (κ × α) → List (κ × α)
  | [] => []
  | e :: es => if e.1 = k then mapErase k es else e :: mapErase k es

/-- Assignment `m[k] = v`, mirroring `std::map::operator[]` followed by
assignment: replaces the value under an existing key, otherwise adds the
binding. -/
def mapInsert {κ α : Type} [DecidableEq κ] (k : κ) (v : α) : List (κ × α) → List (κ × α)
  | [] => [(k, v)]
  | e :: es => if e.1 = k then (k, v) :: es else e :: mapInsert k v es

/-- The conversion performed by `boost::lexical_cast<bool>` on a string: it
uses plain stream extraction into `bool` (no `boolalpha`), so exactly the
strings "1" and "0" convert, to `true` and `false`; every other string makes
the cast throw `boost::bad_lexical_cast` (modelled by `none`). -/
def lexicalCastBool (s : String) : Option Bool :=
  if s = "1" then some true
  else if s = "0" then some false
  else none

/-- Failure of an allocation call.  `invalidOptionValue` is the spec's name
for the `boost::bad_lexical_cast` thrown when a reserved boolean option is
present but unparsable. -/
inductive AllocError : Type where
  | invalidOptionValue : AllocError
  deriving DecidableEq, Repr

/-- The slice of `ModelBasedPlanningContextSpecification` that
`MultiQueryPlannerAllocator` reads: the configuration option map `config_`. -/
structure ModelBasedPlanningContextSpecification where
  config_ : List (String × String)
  deriving DecidableEq, Repr

/-- An `ompl::base::Planner` object as observed through the operations the
allocator performs on it: its identity (`id`, the address produced by `new`),
its concrete type (the template parameter `T`), the name set by `setName`,
the exact option map passed to `params().setParams`, the exploration data it
was constructed with, and the problem-definition/setup state. -/
structure Planner where
  id : Nat
  ptype : String
  name : String
  appliedConfig : List (String × String)
  plannerData : PlannerData
  hasProblemDefinition : Bool
  isSetup : Bool
  deriving DecidableEq, Repr

/-- External collaborators of the allocator, fixed for one run: the durable
storage consulted by `ob::PlannerDataStorage` (`fs path` is the stored blob,
`none` when the file is missing, unreadable or mismatched, so that
`storage_.load` fails), which concrete planner types are persisting
multi-query types (deciding whether `allocatePersistingPlanner<T>` produces
an instance), and whether a `storage_.store` call to a given path with given
data succeeds. -/
structure Env where
  fs : String → Option PlannerData
  persisting : String → Bool
  storeOk : String → PlannerData → Bool

/-- The private state of a `MultiQueryPlannerAllocator`: the cached
multi-query planners (`planners_`), the registered storage paths
(`planner_data_storage_paths_`), and the fresh-address counter modelling the
heap. -/
structure AllocatorState where
  planners : List (String × Option Planner)
  plannerDataStoragePaths : List (String × String)
  nextId : Nat
  deriving DecidableEq, Repr

/-- A freshly constructed allocator: both maps empty. -/
def initState : AllocatorState :=
  { planners := [], plannerDataStoragePaths := [], nextId := 0 }

/-- Result of `storage_.load(file_path, data)` applied to a
default-constructed `PlannerData`: on success `data` holds the stored blob;
on failure an error message is printed and `data` keeps its default (empty)
content. -/
def storageLoad (env : Env) (path : String) : PlannerData :=
  match env.fs path with
  | some d => d
  | none => []

/-- Modelled from the spec: `allocatePersistingPlanner<T>` lives in
`detail/persisting_prm_planners.h`, which is not among the available
sources.  Per §4.4 of the design it constructs an algorithm instance
pre-seeded with the given exploration data when `T` is a persisting
multi-query planner type, and produces no instance (a null pointer,
modelled by `none`) otherwise; the value carried by `some` is the seed data
embedded into the new instance. -/
def allocatePersistingPlanner (env : Env) (ptype : String) (data : PlannerData) :
    Option PlannerData :=
  if env.persisting ptype then some data else none

/-- `MultiQueryPlannerAllocator::allocatePlannerImpl<T>`: optionally
construct the planner from loaded planner data, fall back to `new T(si)`
when that yields no planner, set the name when non-empty, apply
`spec.config_` through `params().setParams(spec.config_, true)`, attach a
fresh problem definition, run `setup()`, and, when `store_planner_data` is
set, remember the storage path for the destructor.  Exactly one planner
object is constructed, consuming one fresh id. -/
def allocatePlannerImpl (env : Env) (ptype : String) (new_name : String)
    (spec : ModelBasedPlanningContextSpecification)
    (load_planner_data store_planner_data : Bool) (file_path : String)
    (st : AllocatorState) : Option Planner × AllocatorState :=
  let loaded : Option PlannerData :=
    if load_planner_data then allocatePersistingPlanner env ptype (storageLoad env file_path)
    else none
  let planner : Planner :=
    { id := st.nextId
      ptype := ptype
      name := ""
      appliedConfig := []
      plannerData := match loaded with | some d => d | none => []
      hasProblemDefinition := false
      isSetup := false }
  let planner := if new_name ≠ "" then { planner with name := new_name } else planner
  let planner := { planner with appliedConfig := spec.config_ }
  let planner := { planner with hasProblemDefinition := true }
  let planner := { planner with isSetup := true }
  let st' := { st with nextId := st.nextId + 1 }
  let st' :=
    if store_planner_data then
      { st' with
        plannerDataStoragePaths := mapInsert new_name file_path st'.plannerDataStoragePaths }
    else st'
  (some planner, st')

/-- Lookup of the reserved string option `planner_data_path` in
`allocatePlanner`, defaulting to the empty string (a default-constructed
`std::string`) when the option is absent. -/
def plannerDataPathOf (cfg : List (String × String)) : String :=
  match mapFind cfg "planner_data_path" with
  | some v => v
  | none => ""

/-- The recurring pattern in `allocatePlanner` for one reserved boolean
option: `cfg.find(key)`, then `boost::lexical_cast<bool>` on the found value
(throwing on failure) and `cfg.erase(it)`; an absent key leaves `cfg`
unchanged and yields the default `false`. -/
def parseBoolOption (key : String) (cfg : List (String × String)) :
    Except AllocError (Bool × List (String × String)) :=
  match mapFind cfg key with
  | none => .ok (false, cfg)
  | some v =>
    match lexicalCastBool v with
    | some b => .ok (b, mapErase key cfg)
    | none => .error .invalidOptionValue

/-- `MultiQueryPlannerAllocator::allocatePlanner<T>`: parse and erase
`multi_query_planning_enabled` from a local copy of `spec.config_`; in
multi-query mode return the cached instance for `new_name` when one exists,
otherwise parse and erase the remaining reserved options, build the planner
through `allocatePlannerImpl` and cache it under `new_name`; otherwise build
a single-shot instance.  A failing `lexical_cast` propagates as an error and
leaves the allocator state unchanged. -/
def allocatePlanner (env : Env) (ptype : String) (new_name : String)
    (spec : ModelBasedPlanningContextSpecification) (st : AllocatorState) :
    Except AllocError (Option Planner × AllocatorState) :=
  match parseBoolOption "multi_query_planning_enabled" spec.config_ with
  | .error e => .error e
  | .ok (multi_query_planning_enabled, cfg) =>
    if multi_query_planning_enabled then
      match mapFind st.planners new_name with
      | some p => .ok (p, st)
      | none =>
        match parseBoolOption "load_planner_data" cfg with
        | .error e => .error e
        | .ok (load_planner_data, cfg) =>
          match parseBoolOption "store_planner_data" cfg with
          | .error e => .error e
          | .ok (store_planner_data, cfg) =>
            let planner_data_path : String := plannerDataPathOf cfg
            let result :=
              allocatePlannerImpl env ptype new_name spec load_planner_data
                store_planner_data planner_data_path st
            .ok (result.1,
              { result.2 with planners := mapInsert new_name result.1 result.2.planners })
    else
      .ok (allocatePlannerImpl env ptype new_name spec false false "" st)

/-- Exploration data read out of `planners_[name]` by the destructor via
`getPlannerData`.  When `name` is absent from `planners_` (or bound to a
null pointer), the C++ `operator[]` would default-insert a null pointer and
the subsequent dereference would be undefined; this case is unreachable for
states the allocator actually produces (every stored path has a live cached
planner), and the model returns the empty blob there. -/
def extractPlannerData (st : AllocatorState) (name : String) : PlannerData :=
  match mapFind st.planners name with
  | some (some p) => p.plannerData
  | _ => []

/-- `MultiQueryPlannerAllocator::~MultiQueryPlannerAllocator`: iterate over
all registered (name, path) pairs; for each, extract the current exploration
data from the cached instance and attempt `storage_.store(data, path)`
(which reports failure by logging, never by throwing, so the loop always
proceeds to the next entry).  The result lists, in order, each attempted
(name, path) pair with the success of its store call. -/
def destructorFlush (env : Env) (st : AllocatorState) : List (String × String × Bool) :=
  st.plannerDataStoragePaths.map fun entry =>
    (entry.1, entry.2, env.storeOk entry.2 (extractPlannerData st entry.1))

/-- One call to `allocatePlanner`, as an element of a call sequence. -/
structure AllocRequest where
  ptype : String
  name : String
  config : List (String × String)
  deriving DecidableEq, Repr

/-- State evolution of one allocator over a sequence of `allocatePlanner`
calls: a call that throws leaves the state as it was (all mutations happen
after the last possible `lexical_cast`). -/
def runAllocs (env : Env) (reqs : List AllocRequest) (st : AllocatorState) :
    AllocatorState :=
  reqs.foldl
    (fun s r =>
      match allocatePlanner env r.ptype r.name { config_ := r.config } s with
      | .ok (_, s') => s'
      | .error _ => s)
    st

/-- Planner configuration settings
(`planning_interface::PlannerConfigurationSettings`): the owning group, the
configuration name, and the option map. -/
structure PlannerConfigurationSettings where
  group : String
  name : String
  config : List (String × String)
  deriving DecidableEq, Repr

/-- A built `ModelBasedPlanningContext` as the context cache observes it:
its identity (fresh id per construction) and the key it was built for. -/
structure PlanningContext where
  id : Nat
  configName : String
  factoryType : String
  deriving DecidableEq, Repr

/-- The state of a `PlanningContextManager` relevant to configuration
replacement and context caching: the configuration registry
(`planner_configs_`), the context cache (`cached_contexts_`, keyed by
configuration name and state-space factory type), and the fresh-id counter
modelling context construction. -/
structure ManagerState where
  plannerConfigs : List (String × PlannerConfigurationSettings)
  cachedContexts : List ((String × String) × PlanningContext)
  nextCtxId : Nat
  deriving DecidableEq, Repr

/-- Modelled from the spec: `PlanningContextManager::getPlanningContext(config,
factory_type)` is implemented in `planning_context_manager.cpp`, which is
not among the available sources.  Per §4.3/§4.5 of the design: resolve the
named configuration from the registry (failing when it is unknown), look the
(configuration name, representation type) key up in the context cache,
return the cached context unchanged on a hit, and on a miss build a fresh
context, insert it into the cache and return it. -/
def getPlanningContext (st : ManagerState) (config : String) (factory_type : String) :
    Option (PlanningContext × ManagerState) :=
  match mapFind st.plannerConfigs config with
  | none => none
  | some _ =>
    match mapFind st.cachedContexts (config, factory_type) with
    | some ctx => some (ctx, st)
    | none =>
      let ctx : PlanningContext :=
        { id := st.nextCtxId, configName := config, factoryType := factory_type }
      some (ctx,
        { st with
          cachedContexts := mapInsert (config, factory_type) ctx st.cachedContexts
          nextCtxId := st.nextCtxId + 1 })

/-- Modelled from the spec: `PlanningContextManager::setPlannerConfigurations`
is implemented in `planning_context_manager.cpp`, not among the available
sources; per §4.1 of the design it replaces the entire configuration set and
invalidates the context cache. -/
def setPlannerConfigurations (pconfig : List (String × PlannerConfigurationSettings))
    (st : ManagerState) : ManagerState :=
  { plannerConfigs := pconfig, cachedContexts := [], nextCtxId := st.nextCtxId }

/-- A concrete environment used to evaluate the model on closed inputs:
empty storage, no persisting planner types, and stores to "/p1" fail while
all other stores succeed. -/
def testEnv : Env :=
  { fs := fun _ => none
    persisting := fun _ => false
    storeOk := fun path _ => path != "/p1" }

/-- A concrete environment in which every planner type is persisting and
"/seeded" holds a stored blob. -/
def seededEnv : Env :=
  { fs := fun path => if path = "/seeded" then some [3, 1, 4] else none
    persisting := fun _ => true
    storeOk := fun _ _ => true }

theorem mapFind_mapInsert_self {κ α : Type} [DecidableEq κ] (k : κ) (v : α)
    (m : List (κ × α)) : mapFind (mapInsert k v m) k = some v := by
  induction m with
  | nil => simp [mapInsert, mapFind]
  | cons e es ih =>
    by_cases h : e.1 = k
    · simp [mapInsert, h, mapFind]
    · simp [mapInsert, h, mapFind, ih]

theorem mapFind_mapInsert_ne {κ α : Type} [DecidableEq κ] {k k' : κ} (v : α)
    (m : List (κ × α)) (h : k' ≠ k) :
    mapFind (mapInsert k v m) k' = mapFind m k' := by
  induction m with
  | nil => simp [mapInsert, mapFind, Ne.symm h]
  | cons e es ih =>
    by_cases he : e.1 = k
    · simp [mapInsert, he, mapFind, Ne.symm h]
    · simp only [mapInsert, he, if_false, mapFind, ih]

theorem mapFind_mapErase_ne {κ α : Type} [DecidableEq κ] {k k' : κ}
    (m : List (κ × α)) (h : k' ≠ k) :
    mapFind (mapErase k m) k' = mapFind m k' := by
  induction m with
  | nil => simp [mapErase]
  | cons e es ih =>
    by_cases he : e.1 = k
    · simp [mapErase, he, mapFind, Ne.symm h, ih]
    · simp only [mapErase, he, if_false, mapFind, ih]

theorem parseBoolOption_of_absent {key : String} {cfg : List (String × String)}
    (h : mapFind cfg key = none) : parseBoolOption key cfg = .ok (false, cfg) := by
  simp [parseBoolOption, h]

theorem parseBoolOption_of_cast {key : String} {cfg : List (String × String)}
    {v : String} {b : Bool} (h : mapFind cfg key = some v)
    (hb : lexicalCastBool v = some b) :
    parseBoolOption key cfg = .ok (b, mapErase key cfg) := by
  simp [parseBoolOption, h, hb]

theorem parseBoolOption_of_bad {key : String} {cfg : List (String × String)}
    {v : String} (h : mapFind cfg key = some v) (hb : lexicalCastBool v = none) :
    parseBoolOption key cfg = .error .invalidOptionValue := by
  simp [parseBoolOption, h, hb]

/-- `allocatePlannerImpl` never touches the `planners_` map. -/
theorem allocatePlannerImpl_planners (env : Env) (ptype new_name : String)
    (spec : ModelBasedPlanningContextSpecification) (load store : Bool)
    (path : String) (st : AllocatorState) :
    (allocatePlannerImpl env ptype new_name spec load store path st).2.planners =
      st.planners := by
  simp only [allocatePlannerImpl]
  split <;> rfl

/-- The pointer returned by `allocatePlannerImpl` is never null, and the
instance behind it has been given a problem definition and set up. -/
theorem allocatePlannerImpl_result (env : Env) (ptype new_name : String)
    (spec : ModelBasedPlanningContextSpecification) (load store : Bool)
    (path : String) (st : AllocatorState) :
    ∃ p : Planner, (allocatePlannerImpl env ptype new_name spec load store path st).1 =
        some p ∧ p.hasProblemDefinition = true ∧ p.isSetup = true :=
  ⟨_, rfl, rfl, rfl⟩

/-- A single-shot instance built with no load, no store and an empty path:
the planner is fresh (it carries the next heap id), named, configured with
the full `spec.config_`, unseeded and set up; the state only advances the
heap counter. -/
theorem allocatePlannerImpl_no_load_no_store (env : Env) (ptype new_name : String)
    (spec : ModelBasedPlanningContextSpecification) (st : AllocatorState) :
    allocatePlannerImpl env ptype new_name spec false false "" st =
      (some { id := st.nextId, ptype := ptype, name := new_name,
              appliedConfig := spec.config_, plannerData := [],
              hasProblemDefinition := true, isSetup := true },
       { st with nextId := st.nextId + 1 }) := by
  by_cases h : new_name = ""
  · subst h; simp [allocatePlannerImpl]
  · simp [allocatePlannerImpl, h]

/-- `spec` has `multi_query_planning_enabled` absent, or present with a
value that `boost::lexical_cast` reads as `false`. -/
def mqDisabled (spec : ModelBasedPlanningContextSpecification) : Prop :=
  mapFind spec.config_ "multi_query_planning_enabled" = none ∨
    ∃ v, mapFind spec.config_ "multi_query_planning_enabled" = some v ∧
      lexicalCastBool v = some false

/-- With multi-query planning disabled, `allocatePlanner` is exactly a
single-shot `allocatePlannerImpl` call with default persistence arguments. -/
theorem allocatePlanner_of_mqDisabled {env : Env} {ptype name : String}
    {spec : ModelBasedPlanningContextSpecification} {st : AllocatorState}
    (h : mqDisabled spec) :
    allocatePlanner env ptype name spec st =
      .ok (allocatePlannerImpl env ptype name spec false false "" st) := by
  rcases h with h | ⟨v, hv, hb⟩
  · simp [allocatePlanner, parseBoolOption_of_absent h]
  · simp [allocatePlanner, parseBoolOption_of_cast hv hb]

/-- With multi-query planning enabled and an instance already cached under
the name, `allocatePlanner` returns that instance and leaves the state
untouched. -/
theorem allocatePlanner_cache_hit {env : Env} {ptype name : String}
    {spec : ModelBasedPlanningContextSpecification} {st : AllocatorState}
    {v : String} {p : Option Planner}
    (hv : mapFind spec.config_ "multi_query_planning_enabled" = some v)
    (hb : lexicalCastBool v = some true)
    (hp : mapFind st.planners name = some p) :
    allocatePlanner env ptype name spec st = .ok (p, st) := by
  simp [allocatePlanner, parseBoolOption_of_cast hv hb, hp]

/-- A successful multi-query `allocatePlanner` call leaves the returned
pointer cached under the requested name. -/
theorem allocatePlanner_multiquery_caches {env : Env} {ptype name : String}
    {spec : ModelBasedPlanningContextSpecification} {st : AllocatorState}
    {v : String} {p : Option Planner} {st' : AllocatorState}
    (hv : mapFind spec.config_ "multi_query_planning_enabled" = some v)
    (hb : lexicalCastBool v = some true)
    (h : allocatePlanner env ptype name spec st = .ok (p, st')) :
    mapFind st'.planners name = some p := by
  rw [allocatePlanner, parseBoolOption_of_cast hv hb] at h
  simp only [if_true] at h
  cases hp : mapFind st.planners name with
  | some q =>
    simp only [hp, Except.ok.injEq, Prod.mk.injEq] at h
    obtain ⟨rfl, rfl⟩ := h
    exact hp
  | none =>
    simp only [hp] at h
    cases hl : parseBoolOption "load_planner_data"
        (mapErase "multi_query_planning_enabled" spec.config_) with
    | error e => simp only [hl] at h; cases h
    | ok lc =>
      obtain ⟨load, cfg₂⟩ := lc
      simp only [hl] at h
      cases hs : parseBoolOption "store_planner_data" cfg₂ with
      | error e => simp only [hs] at h; cases h
      | ok sc =>
        obtain ⟨store, cfg₃⟩ := sc
        simp only [hs, Except.ok.injEq, Prod.mk.injEq] at h
        obtain ⟨rfl, rfl⟩ := h
        exact mapFind_mapInsert_self _ _ _

/-- One `allocatePlanner` call never removes or replaces an existing entry
of `planners_`: a call that throws leaves the state unchanged, a cache hit
returns the state unchanged, and a new multi-query entry is inserted only
under a name that was not bound before. -/
theorem allocatePlanner_preserves_entry (env : Env) (ptype nm : String)
    (spec : ModelBasedPlanningContextSpecification) {st : AllocatorState}
    {name : String} {p : Option Planner}
    (h : mapFind st.planners name = some p) :
    mapFind (match allocatePlanner env ptype nm spec st with
             | .ok (_, s') => s'
             | .error _ => st).planners name = some p := by
  cases hmq : parseBoolOption "multi_query_planning_enabled" spec.config_ with
  | error e => simp [allocatePlanner, hmq, h]
  | ok bc =>
    obtain ⟨b, cfg⟩ := bc
    cases b with
    | false => simp [allocatePlanner, hmq, allocatePlannerImpl_planners, h]
    | true =>
      cases hp : mapFind st.planners nm with
      | some q => simp [allocatePlanner, hmq, hp, h]
      | none =>
        have hne : name ≠ nm := fun hEq => by rw [hEq, hp] at h; cases h
        cases hl : parseBoolOption "load_planner_data" cfg with
        | error e => simp [allocatePlanner, hmq, hp, hl, h]
        | ok lc =>
          obtain ⟨load, cfg₂⟩ := lc
          cases hs : parseBoolOption "store_planner_data" cfg₂ with
          | error e => simp [allocatePlanner, hmq, hp, hl, hs, h]
          | ok sc =>
            obtain ⟨store, cfg₃⟩ := sc
            simp [allocatePlanner, hmq, hp, hl, hs, allocatePlannerImpl_planners,
              mapFind_mapInsert_ne _ _ hne, h]

/-- A concrete cached multi-query planner and the allocator state holding
it, as produced by one multi-query `allocatePlanner` call on a fresh
allocator. -/
def samplePlanner : Planner :=
  { id := 0, ptype := "PRM", name := "n",
    appliedConfig := [("multi_query_planning_enabled", "1")],
    plannerData := [], hasProblemDefinition := true, isSetup := true }

/-- The allocator state after caching `samplePlanner` under "n". -/
def sampleState : AllocatorState :=
  { planners := [("n", some samplePlanner)],
    plannerDataStoragePaths := [], nextId := 1 }

/-- C1: for a name allocated with `multi_query_planning_enabled=true`, a
second `allocatePlanner` call for the same name (itself multi-query-enabled)
returns the very same algorithm instance as the first call — pointer
identity — regardless of the remaining configuration options, the requested
planner type or the environment of the second call; the second call's
options are ignored and the allocator state, in particular the cached
entry, is not modified. -/
theorem allocatePlanner_second_call_returns_cached (env₁ env₂ : Env)
    (ptype₁ ptype₂ name : String)
    (spec₁ spec₂ : ModelBasedPlanningContextSpecification)
    (st st₁ : AllocatorState) (p : Option Planner) (v₁ v₂ : String)
    (hv₁ : mapFind spec₁.config_ "multi_query_planning_enabled" = some v₁)
    (hb₁ : lexicalCastBool v₁ = some true)
    (hv₂ : mapFind spec₂.config_ "multi_query_planning_enabled" = some v₂)
    (hb₂ : lexicalCastBool v₂ = some true)
    (hfirst : allocatePlanner env₁ ptype₁ name spec₁ st = .ok (p, st₁)) :
    allocatePlanner env₂ ptype₂ name spec₂ st₁ = .ok (p, st₁) :=
  allocatePlanner_cache_hit hv₂ hb₂
    (allocatePlanner_multiquery_caches hv₁ hb₁ hfirst)

/-- Witness for C1: a second multi-query call with a different planner type
and different options returns the instance cached by the first call and
leaves the state unchanged. -/
theorem allocatePlanner_second_call_returns_cached_witness :
    allocatePlanner testEnv "RRTConnect" "n"
      { config_ := [("multi_query_planning_enabled", "1"), ("range", "0.5")] }
      sampleState = .ok (some samplePlanner, sampleState) :=
  allocatePlanner_second_call_returns_cached testEnv testEnv "PRM" "RRTConnect"
    "n" { config_ := [("multi_query_planning_enabled", "1")] }
    { config_ := [("multi_query_planning_enabled", "1"), ("range", "0.5")] }
    initState sampleState (some samplePlanner) "1" "1" rfl rfl rfl rfl rfl

/-- C3: for a call with `multi_query_planning_enabled` absent or false,
`allocatePlanner` constructs and returns a fresh, fully set-up algorithm
instance every call — two consecutive calls return two distinct
instances — and the allocator retains no reference to them: `planners_` and
`planner_data_storage_paths_` are exactly as before, only the heap counter
advances. -/
theorem allocatePlanner_single_shot_fresh (env₁ env₂ : Env)
    (ptype₁ ptype₂ name₁ name₂ : String)
    (spec₁ spec₂ : ModelBasedPlanningContextSpecification) (st : AllocatorState)
    (h₁ : mqDisabled spec₁) (h₂ : mqDisabled spec₂) :
    allocatePlanner env₁ ptype₁ name₁ spec₁ st =
      .ok (some { id := st.nextId, ptype := ptype₁, name := name₁,
                  appliedConfig := spec₁.config_, plannerData := [],
                  hasProblemDefinition := true, isSetup := true },
           { st with nextId := st.nextId + 1 }) ∧
    allocatePlanner env₂ ptype₂ name₂ spec₂ { st with nextId := st.nextId + 1 } =
      .ok (some { id := st.nextId + 1, ptype := ptype₂, name := name₂,
                  appliedConfig := spec₂.config_, plannerData := [],
                  hasProblemDefinition := true, isSetup := true },
           { st with nextId := st.nextId + 2 }) ∧
    ({ id := st.nextId, ptype := ptype₁, name := name₁,
       appliedConfig := spec₁.config_, plannerData := [],
       hasProblemDefinition := true, isSetup := true } : Planner) ≠
      { id := st.nextId + 1, ptype := ptype₂, name := name₂,
        appliedConfig := spec₂.config_, plannerData := [],
        hasProblemDefinition := true, isSetup := true } := by
  refine ⟨?_, ?_, ?_⟩
  · rw [allocatePlanner_of_mqDisabled h₁, allocatePlannerImpl_no_load_no_store]
  · rw [allocatePlanner_of_mqDisabled h₂, allocatePlannerImpl_no_load_no_store]
  · intro hEq
    have hid := congrArg Planner.id hEq
    simp at hid

/-- Witness for C3: two single-shot calls for the same name on a fresh
allocator, one with the flag absent and one with the flag "0". -/
theorem allocatePlanner_single_shot_fresh_witness :
    allocatePlanner testEnv "PRM" "a" { config_ := [("range", "5")] } initState =
      .ok (some { id := 0, ptype := "PRM", name := "a",
                  appliedConfig := [("range", "5")], plannerData := [],
                  hasProblemDefinition := true, isSetup := true },
           { initState with nextId := 1 }) ∧
    allocatePlanner testEnv "RRT" "a"
      { config_ := [("multi_query_planning_enabled", "0")] }
      { initState with nextId := 1 } =
      .ok (some { id := 1, ptype := "RRT", name := "a",
                  appliedConfig := [("multi_query_planning_enabled", "0")],
                  plannerData := [], hasProblemDefinition := true, isSetup := true },
           { initState with nextId := 2 }) ∧
    ({ id := 0, ptype := "PRM", name := "a", appliedConfig := [("range", "5")],
       plannerData := [], hasProblemDefinition := true, isSetup := true } : Planner) ≠
      { id := 1, ptype := "RRT", name := "a",
        appliedConfig := [("multi_query_planning_enabled", "0")],
        plannerData := [], hasProblemDefinition := true, isSetup := true } :=
  allocatePlanner_single_shot_fresh testEnv testEnv "PRM" "RRT" "a" "a"
    { config_ := [("range", "5")] }
    { config_ := [("multi_query_planning_enabled", "0")] }
    initState (Or.inl rfl) (Or.inr ⟨"0", rfl, rfl⟩)

/-- C6: over any sequence of `allocatePlanner` calls on one allocator, a
cached algorithm entry for a given name is created at most once and is never
removed or replaced: once a name is bound in the planner map, it maps to the
same instance in every later state, until teardown. -/
theorem planners_entry_stable (env : Env) (reqs : List AllocRequest)
    (st : AllocatorState) (name : String) (p : Option Planner)
    (h : mapFind st.planners name = some p) :
    mapFind (runAllocs env reqs st).planners name = some p := by
  induction reqs generalizing st with
  | nil => exact h
  | cons r rs ih =>
    exact ih _ (allocatePlanner_preserves_entry env r.ptype r.name
      { config_ := r.config } h)

/-- A concrete call sequence exercising a cache hit, an unrelated
single-shot call and a throwing call. -/
def sampleReqs : List AllocRequest :=
  [{ ptype := "PRM", name := "n",
     config := [("multi_query_planning_enabled", "1"), ("range", "2")] },
   { ptype := "RRT", name := "other", config := [] },
   { ptype := "PRM", name := "n",
     config := [("multi_query_planning_enabled", "bogus")] }]

/-- Witness for C6: the entry cached under "n" survives a further multi-query
call, a single-shot call and a throwing call unchanged. -/
theorem planners_entry_stable_witness :
    mapFind (runAllocs testEnv sampleReqs sampleState).planners "n" =
      some (some samplePlanner) :=
  planners_entry_stable testEnv sampleReqs sampleState "n" (some samplePlanner) rfl

/-- C2 (divergence exhibit): `allocatePlanner` erases the four reserved
options only from the dead local copy `cfg` and then hands the original
`spec.config_` to `params().setParams` inside `allocatePlannerImpl`, so the
option set applied to the new instance still contains every reserved key
that was present — contradicting the claim that they are stripped before
application. -/
theorem setParams_receives_reserved_keys :
    ∃ p st', allocatePlanner testEnv "PRM" "mq"
        { config_ := [("multi_query_planning_enabled", "1"),
                      ("load_planner_data", "0"), ("store_planner_data", "0"),
                      ("planner_data_path", "/tmp/d.dat"), ("range", "2")] }
        initState = .ok (some p, st') ∧
      mapFind p.appliedConfig "multi_query_planning_enabled" = some "1" ∧
      mapFind p.appliedConfig "load_planner_data" = some "0" ∧
      mapFind p.appliedConfig "store_planner_data" = some "0" ∧
      mapFind p.appliedConfig "planner_data_path" = some "/tmp/d.dat" :=
  ⟨_, _, rfl, rfl, rfl, rfl, rfl⟩

/-- Construction of a new instance when loading fails: `storage_.load` finds
nothing at the path, so the planner data stays empty and the constructed
instance — whether `allocatePersistingPlanner` produced one from the empty
data or the `new T(si)` fallback ran — is unseeded, named, configured and
set up. -/
theorem allocatePlannerImpl_load_failed (env : Env) (ptype new_name : String)
    (spec : ModelBasedPlanningContextSpecification) (store : Bool)
    (path : String) (st : AllocatorState) (hfs : env.fs path = none) :
    (allocatePlannerImpl env ptype new_name spec true store path st).1 =
      some { id := st.nextId, ptype := ptype, name := new_name,
             appliedConfig := spec.config_, plannerData := [],
             hasProblemDefinition := true, isSetup := true } := by
  by_cases hn : new_name = ""
  · subst hn
    by_cases hp : env.persisting ptype <;>
      simp [allocatePlannerImpl, allocatePersistingPlanner, storageLoad, hfs, hp]
  · by_cases hp : env.persisting ptype <;>
      simp [allocatePlannerImpl, allocatePersistingPlanner, storageLoad, hfs, hn, hp]

/-- C5: with multi-query planning enabled for a not-yet-cached name and
`load_planner_data` true, an allocation whose deserialization fails (the
environment holds no readable blob at the configured path) still succeeds:
it returns a non-null, fully set-up instance whose exploration data is
empty (unseeded), and the load failure raises no error. -/
theorem allocatePlanner_load_failure_nonfatal (env : Env) (ptype name : String)
    (spec : ModelBasedPlanningContextSpecification) (st : AllocatorState)
    (v : String) (store : Bool) (cfg₂ cfg₃ : List (String × String))
    (hv : mapFind spec.config_ "multi_query_planning_enabled" = some v)
    (hb : lexicalCastBool v = some true)
    (hmiss : mapFind st.planners name = none)
    (hl : parseBoolOption "load_planner_data"
        (mapErase "multi_query_planning_enabled" spec.config_) = .ok (true, cfg₂))
    (hs : parseBoolOption "store_planner_data" cfg₂ = .ok (store, cfg₃))
    (hfs : env.fs (plannerDataPathOf cfg₃) = none) :
    match allocatePlanner env ptype name spec st with
    | .ok (some p, _) =>
        p.plannerData = [] ∧ p.hasProblemDefinition = true ∧ p.isSetup = true
    | _ => False := by
  have himpl := allocatePlannerImpl_load_failed env ptype name spec store
    (plannerDataPathOf cfg₃) st hfs
  rw [allocatePlanner, parseBoolOption_of_cast hv hb]
  simp [hmiss, hl, hs, himpl]

/-- Witness for C5: a load-enabled multi-query allocation against an
environment with no stored file succeeds with an unseeded, set-up
instance. -/
theorem allocatePlanner_load_failure_nonfatal_witness :
    match allocatePlanner testEnv "PRM" "m"
      { config_ := [("multi_query_planning_enabled", "1"),
                    ("load_planner_data", "1"),
                    ("planner_data_path", "/nope")] } initState with
    | .ok (some p, _) =>
        p.plannerData = [] ∧ p.hasProblemDefinition = true ∧ p.isSetup = true
    | _ => False :=
  allocatePlanner_load_failure_nonfatal testEnv "PRM" "m"
    { config_ := [("multi_query_planning_enabled", "1"),
                  ("load_planner_data", "1"), ("planner_data_path", "/nope")] }
    initState "1" false
    [("planner_data_path", "/nope")] [("planner_data_path", "/nope")]
    rfl rfl rfl rfl rfl rfl

/-- C9 (amended): when a reserved boolean option is present with a value
`boost::lexical_cast<bool>` cannot parse — the accepted values are exactly
"1" and "0" — the allocation call fails fatally with the
`invalidOptionValue` error (the propagated `bad_lexical_cast`); this applies
to `multi_query_planning_enabled` on every call, and to `load_planner_data`
and `store_planner_data` on a multi-query call that constructs a new entry.
The spec scenario's value "true" is among the unparsable strings, so it
triggers this failure rather than being accepted. -/
theorem allocatePlanner_unparsable_bool_fatal (env : Env) (ptype name : String)
    (spec : ModelBasedPlanningContextSpecification) (st : AllocatorState) :
    (∀ v, mapFind spec.config_ "multi_query_planning_enabled" = some v →
      lexicalCastBool v = none →
      allocatePlanner env ptype name spec st = .error .invalidOptionValue) ∧
    (∀ v w, mapFind spec.config_ "multi_query_planning_enabled" = some v →
      lexicalCastBool v = some true →
      mapFind st.planners name = none →
      mapFind (mapErase "multi_query_planning_enabled" spec.config_)
          "load_planner_data" = some w →
      lexicalCastBool w = none →
      allocatePlanner env ptype name spec st = .error .invalidOptionValue) ∧
    (∀ v load cfg₂ w,
      mapFind spec.config_ "multi_query_planning_enabled" = some v →
      lexicalCastBool v = some true →
      mapFind st.planners name = none →
      parseBoolOption "load_planner_data"
          (mapErase "multi_query_planning_enabled" spec.config_) =
        .ok (load, cfg₂) →
      mapFind cfg₂ "store_planner_data" = some w →
      lexicalCastBool w = none →
      allocatePlanner env ptype name spec st = .error .invalidOptionValue) := by
  refine ⟨?_, ?_, ?_⟩
  · intro v hv hb
    simp [allocatePlanner, parseBoolOption_of_bad hv hb]
  · intro v w hv hb hmiss hw hbad
    simp [allocatePlanner, parseBoolOption_of_cast hv hb, hmiss,
      parseBoolOption_of_bad hw hbad]
  · intro v load cfg₂ w hv hb hmiss hl hw hbad
    simp [allocatePlanner, parseBoolOption_of_cast hv hb, hmiss, hl,
      parseBoolOption_of_bad hw hbad]

/-- Witness for C9 (amended): each reserved boolean option set to an
unparsable string — including the spec's own value "true" — makes the
allocation fail with `invalidOptionValue`. -/
theorem allocatePlanner_unparsable_bool_fatal_witness :
    allocatePlanner testEnv "PRM" "a"
      { config_ := [("multi_query_planning_enabled", "true")] } initState =
      .error .invalidOptionValue ∧
    allocatePlanner testEnv "PRM" "b"
      { config_ := [("multi_query_planning_enabled", "1"),
                    ("load_planner_data", "true")] } initState =
      .error .invalidOptionValue ∧
    allocatePlanner testEnv "PRM" "c"
      { config_ := [("multi_query_planning_enabled", "1"),
                    ("store_planner_data", "yes")] } initState =
      .error .invalidOptionValue :=
  ⟨(allocatePlanner_unparsable_bool_fatal testEnv "PRM" "a"
      { config_ := [("multi_query_planning_enabled", "true")] } initState).1
      "true" rfl rfl,
   (allocatePlanner_unparsable_bool_fatal testEnv "PRM" "b"
      { config_ := [("multi_query_planning_enabled", "1"),
                    ("load_planner_data", "true")] } initState).2.1
      "1" "true" rfl rfl rfl rfl rfl,
   (allocatePlanner_unparsable_bool_fatal testEnv "PRM" "c"
      { config_ := [("multi_query_planning_enabled", "1"),
                    ("store_planner_data", "yes")] } initState).2.2
      "1" false [("store_planner_data", "yes")] "yes" rfl rfl rfl rfl rfl rfl⟩

/-- C9 counterexample: the spec's own scenario configures the reserved
boolean options with the string "true", which `boost::lexical_cast<bool>`
rejects, so the allocation the claim says must succeed in fact fails
fatally. -/
theorem spec_scenario_true_rejected :
    allocatePlanner testEnv "PRM" "arm[rrt_fast]"
      { config_ := [("multi_query_planning_enabled", "true"),
                    ("store_planner_data", "true"),
                    ("planner_data_path", "/tmp/rrt_fast.dat")] } initState =
      .error .invalidOptionValue := rfl

/-- Every pointer cached in `planners_` is non-null and belongs to an
instance with a problem definition that has been set up. -/
def PlannersWellFormed (st : AllocatorState) : Prop :=
  ∀ name popt, mapFind st.planners name = some popt →
    ∃ p, popt = some p ∧ p.hasProblemDefinition = true ∧ p.isSetup = true

/-- C10: `allocatePlanner` never returns a null instance: on an allocator
whose cache holds only non-null, set-up instances (true of every reachable
state), every successful call returns a non-null instance that carries a
problem definition and has been set up — in particular, when loading yields
no pre-seeded planner, the `new T(si)` fallback instance is returned. -/
theorem allocatePlanner_never_null (env : Env) (ptype name : String)
    (spec : ModelBasedPlanningContextSpecification) (st : AllocatorState)
    (popt : Option Planner) (st' : AllocatorState)
    (hwf : PlannersWellFormed st)
    (h : allocatePlanner env ptype name spec st = .ok (popt, st')) :
    match popt with
    | some p => p.hasProblemDefinition = true ∧ p.isSetup = true
    | none => False := by
  cases hmq : parseBoolOption "multi_query_planning_enabled" spec.config_ with
  | error e => rw [allocatePlanner, hmq] at h; cases h
  | ok bc =>
    obtain ⟨b, cfg⟩ := bc
    cases b with
    | false =>
      have hred : allocatePlanner env ptype name spec st =
          .ok (allocatePlannerImpl env ptype name spec false false "" st) := by
        rw [allocatePlanner, hmq]; rfl
      rw [hred] at h
      injection h with h'
      have h1 : (allocatePlannerImpl env ptype name spec false false "" st).1 =
          popt := congrArg Prod.fst h'
      obtain ⟨p, hp, hpd, hsu⟩ := allocatePlannerImpl_result env ptype name spec
        false false "" st
      rw [hp] at h1
      subst h1
      exact ⟨hpd, hsu⟩
    | true =>
      rw [allocatePlanner, hmq] at h
      simp only [if_true] at h
      cases hp : mapFind st.planners name with
      | some q =>
        simp only [hp, Except.ok.injEq, Prod.mk.injEq] at h
        obtain ⟨h1, rfl⟩ := h
        obtain ⟨p, hq, hpd, hsu⟩ := hwf name q hp
        rw [hq] at h1
        subst h1
        exact ⟨hpd, hsu⟩
      | none =>
        simp only [hp] at h
        cases hl : parseBoolOption "load_planner_data" cfg with
        | error e => simp only [hl] at h; cases h
        | ok lc =>
          obtain ⟨load, cfg₂⟩ := lc
          simp only [hl] at h
          cases hs : parseBoolOption "store_planner_data" cfg₂ with
          | error e => simp only [hs] at h; cases h
          | ok sc =>
            obtain ⟨store, cfg₃⟩ := sc
            simp only [hs, Except.ok.injEq, Prod.mk.injEq] at h
            obtain ⟨h1, _⟩ := h
            obtain ⟨p, hip, hpd, hsu⟩ := allocatePlannerImpl_result env ptype name
              spec load store (plannerDataPathOf cfg₃) st
            rw [hip] at h1
            subst h1
            exact ⟨hpd, hsu⟩

/-- The fully set-up fallback instance produced by a load-enabled allocation
in an environment where no planner type is persisting. -/
def fallbackPlanner : Planner :=
  { id := 0, ptype := "PRM", name := "w10",
    appliedConfig := [("multi_query_planning_enabled", "1"),
                      ("load_planner_data", "1"),
                      ("planner_data_path", "/nofile")],
    plannerData := [], hasProblemDefinition := true, isSetup := true }

/-- Witness for C10: a call in which `allocatePersistingPlanner` yields no
planner still returns a non-null, set-up fallback instance. -/
theorem allocatePlanner_never_null_witness :
    fallbackPlanner.hasProblemDefinition = true ∧ fallbackPlanner.isSetup = true :=
  allocatePlanner_never_null testEnv "PRM" "w10"
    { config_ := [("multi_query_planning_enabled", "1"),
                  ("load_planner_data", "1"), ("planner_data_path", "/nofile")] }
    initState (some fallbackPlanner)
    { planners := [("w10", some fallbackPlanner)],
      plannerDataStoragePaths := [], nextId := 1 }
    (fun _ _ hx => by simp [initState, mapFind] at hx)
    rfl

/-- Membership in an updated map comes from the new binding or from the old
map. -/
theorem mem_mapInsert {κ α : Type} [DecidableEq κ] {k : κ} {v : α}
    {l : List (κ × α)} {e : κ × α} (h : e ∈ mapInsert k v l) :
    e = (k, v) ∨ e ∈ l := by
  induction l with
  | nil => simpa [mapInsert] using h
  | cons x xs ih =>
    by_cases hx : x.1 = k
    · simp only [mapInsert, hx, if_true, List.mem_cons] at h
      rcases h with rfl | h
      · exact Or.inl rfl
      · exact Or.inr (List.mem_cons_of_mem _ h)
    · simp only [mapInsert, hx, if_false, List.mem_cons] at h
      rcases h with rfl | h
      · exact Or.inr (List.mem_cons_self _ _)
      · rcases ih h with h' | h'
        · exact Or.inl h'
        · exact Or.inr (List.mem_cons_of_mem _ h')

/-- `allocatePlannerImpl` registers the storage path exactly when
`store_planner_data` is set. -/
theorem allocatePlannerImpl_paths (env : Env) (ptype new_name : String)
    (spec : ModelBasedPlanningContextSpecification) (load store : Bool)
    (path : String) (st : AllocatorState) :
    (allocatePlannerImpl env ptype new_name spec load store path st).2.plannerDataStoragePaths =
      if store then mapInsert new_name path st.plannerDataStoragePaths
      else st.plannerDataStoragePaths := by
  simp only [allocatePlannerImpl]
  split <;> rfl

/-- Every (name, path) pair registered in `planner_data_storage_paths_` has
a live (non-null) cached instance under that name in `planners_`. -/
def StoredPathsLive (st : AllocatorState) : Prop :=
  ∀ entry ∈ st.plannerDataStoragePaths,
    ∃ q, mapFind st.planners entry.1 = some (some q)

/-- A successful `allocatePlanner` call preserves the liveness of all
registered storage paths: a path is only ever registered in the same call
that caches the freshly built (non-null) instance under its name. -/
theorem allocatePlanner_ok_preserves_live {env : Env} {ptype nm : String}
    {spec : ModelBasedPlanningContextSpecification} {st : AllocatorState}
    {p : Option Planner} {st' : AllocatorState} (hinv : StoredPathsLive st)
    (h : allocatePlanner env ptype nm spec st = .ok (p, st')) :
    StoredPathsLive st' := by
  cases hmq : parseBoolOption "multi_query_planning_enabled" spec.config_ with
  | error e => rw [allocatePlanner, hmq] at h; cases h
  | ok bc =>
    obtain ⟨b, cfg⟩ := bc
    cases b with
    | false =>
      have hred : allocatePlanner env ptype nm spec st =
          .ok (allocatePlannerImpl env ptype nm spec false false "" st) := by
        rw [allocatePlanner, hmq]; rfl
      rw [hred] at h
      injection h with h'
      have h2 : (allocatePlannerImpl env ptype nm spec false false "" st).2 = st' :=
        congrArg Prod.snd h'
      rw [allocatePlannerImpl_no_load_no_store] at h2
      subst h2
      intro entry he
      exact hinv entry he
    | true =>
      rw [allocatePlanner, hmq] at h
      simp only [if_true] at h
      cases hp : mapFind st.planners nm with
      | some q =>
        simp only [hp, Except.ok.injEq, Prod.mk.injEq] at h
        obtain ⟨_, rfl⟩ := h
        exact hinv
      | none =>
        simp only [hp] at h
        cases hl : parseBoolOption "load_planner_data" cfg with
        | error e => simp only [hl] at h; cases h
        | ok lc =>
          obtain ⟨load, cfg₂⟩ := lc
          simp only [hl] at h
          cases hs : parseBoolOption "store_planner_data" cfg₂ with
          | error e => simp only [hs] at h; cases h
          | ok sc =>
            obtain ⟨store, cfg₃⟩ := sc
            simp only [hs, Except.ok.injEq, Prod.mk.injEq] at h
            obtain ⟨_, rfl⟩ := h
            intro entry he
            obtain ⟨q, hq, _, _⟩ := allocatePlannerImpl_result env ptype nm spec
              load store (plannerDataPathOf cfg₃) st
            simp only [allocatePlannerImpl_paths] at he
            have hmem : entry = (nm, plannerDataPathOf cfg₃) ∨
                entry ∈ st.plannerDataStoragePaths := by
              cases store with
              | false => exact Or.inr he
              | true => simpa using mem_mapInsert (by simpa using he)
            rcases hmem with rfl | hmem
            · refine ⟨q, ?_⟩
              show mapFind (mapInsert nm _ _) nm = _
              rw [mapFind_mapInsert_self, hq]
            · obtain ⟨q', hq'⟩ := hinv entry hmem
              have hne : entry.1 ≠ nm := by
                intro hEq; rw [hEq, hp] at hq'; cases hq'
              refine ⟨q', ?_⟩
              show mapFind (mapInsert nm _ _) entry.1 = _
              rw [mapFind_mapInsert_ne _ _ hne, allocatePlannerImpl_planners]
              exact hq'

/-- The liveness invariant holds along any sequence of `allocatePlanner`
calls. -/
theorem runAllocs_preserves_live (env : Env) (reqs : List AllocRequest)
    {st : AllocatorState} (h : StoredPathsLive st) :
    StoredPathsLive (runAllocs env reqs st) := by
  induction reqs generalizing st with
  | nil => exact h
  | cons r rs ih =>
    have hstep : StoredPathsLive
        (match allocatePlanner env r.ptype r.name { config_ := r.config } st with
         | .ok (_, s') => s'
         | .error _ => st) := by
      cases hck : allocatePlanner env r.ptype r.name { config_ := r.config } st with
      | ok res =>
        obtain ⟨p, s'⟩ := res
        simpa [hck] using allocatePlanner_ok_preserves_live h hck
      | error e => simpa [hck] using h
    exact ih hstep

/-- A fresh allocator trivially satisfies the liveness invariant. -/
theorem initState_live : StoredPathsLive initState := by
  intro e he
  simp [initState] at he

/-- C4: at allocator teardown, every registered (name, path) pair is
processed: the destructor extracts the current exploration data from the
live cached instance under the name and attempts to serialize it to the
path.  The flush is best-effort and sequential — the attempted pairs are
exactly the registered ones, in order, for every environment, including
environments in which some of the store calls fail, so one entry's failure
never prevents the remaining entries from being attempted. -/
theorem destructorFlush_attempts_all (env : Env) (st : AllocatorState)
    (hlive : StoredPathsLive st) :
    (destructorFlush env st).map (fun r => (r.1, r.2.1)) =
        st.plannerDataStoragePaths ∧
    ∀ entry ∈ st.plannerDataStoragePaths,
      ∃ q, mapFind st.planners entry.1 = some (some q) ∧
        (entry.1, entry.2, env.storeOk entry.2 q.plannerData) ∈
          destructorFlush env st := by
  constructor
  · simp [destructorFlush, List.map_map, Function.comp_def]
  · intro entry he
    obtain ⟨q, hq⟩ := hlive entry he
    refine ⟨q, hq, ?_⟩
    have hx : q.plannerData = extractPlannerData st entry.1 := by
      simp [extractPlannerData, hq]
    rw [hx, destructorFlush]
    exact List.mem_map_of_mem
      (fun e => (e.1, e.2, env.storeOk e.2 (extractPlannerData st e.1))) he

/-- A cached planner holding learned exploration data under a registered
store path "/p1". -/
def flushPlanner1 : Planner :=
  { id := 0, ptype := "PRM", name := "m", appliedConfig := [],
    plannerData := [5], hasProblemDefinition := true, isSetup := true }

/-- A second cached planner with a store path "/p2". -/
def flushPlanner2 : Planner :=
  { id := 1, ptype := "PRM", name := "k", appliedConfig := [],
    plannerData := [7], hasProblemDefinition := true, isSetup := true }

/-- An allocator holding two store-enabled cached planners. -/
def flushState : AllocatorState :=
  { planners := [("m", some flushPlanner1), ("k", some flushPlanner2)],
    plannerDataStoragePaths := [("m", "/p1"), ("k", "/p2")], nextId := 2 }

/-- Witness for C4: under `testEnv` the store to "/p1" fails, yet the flush
still attempts both registered pairs in order. -/
theorem destructorFlush_attempts_all_witness :
    (destructorFlush testEnv flushState).map (fun r => (r.1, r.2.1)) =
      flushState.plannerDataStoragePaths :=
  (destructorFlush_attempts_all testEnv flushState (by
    intro entry he
    simp only [flushState, List.mem_cons, List.mem_singleton] at he
    rcases he with rfl | rfl | he
    · exact ⟨flushPlanner1, rfl⟩
    · exact ⟨flushPlanner2, rfl⟩
    · cases he)).1

/-- C7: for a registered configuration name, calling `getPlanningContext`
twice on an otherwise unchanged manager returns the identical cached
planning context (identity equality) and leaves the manager as it was after
the first call — not two separately built instances. -/
theorem getPlanningContext_twice_identical (st : ManagerState)
    (config factory_type : String) (ctx : PlanningContext) (st₁ : ManagerState)
    (h : getPlanningContext st config factory_type = some (ctx, st₁)) :
    getPlanningContext st₁ config factory_type = some (ctx, st₁) := by
  cases hc : mapFind st.plannerConfigs config with
  | none => rw [getPlanningContext, hc] at h; cases h
  | some c =>
    rw [getPlanningContext, hc] at h
    cases hx : mapFind st.cachedContexts (config, factory_type) with
    | some ctx₀ =>
      simp only [hx, Option.some.injEq, Prod.mk.injEq] at h
      obtain ⟨rfl, rfl⟩ := h
      rw [getPlanningContext, hc, hx]
    | none =>
      simp only [hx, Option.some.injEq, Prod.mk.injEq] at h
      obtain ⟨rfl, rfl⟩ := h
      simp only [getPlanningContext, hc, mapFind_mapInsert_self]

/-- A planner configuration registered under the name "arm". -/
def armSettings : PlannerConfigurationSettings :=
  { group := "arm", name := "arm", config := [] }

/-- A manager with one registered configuration and an empty context
cache. -/
def freshManager : ManagerState :=
  { plannerConfigs := [("arm", armSettings)], cachedContexts := [],
    nextCtxId := 0 }

/-- The context built for configuration "arm" on the fresh manager. -/
def armContext : PlanningContext :=
  { id := 0, configName := "arm", factoryType := "" }

/-- The manager state after the first `getPlanningContext` call for
"arm". -/
def cachedManager : ManagerState :=
  { plannerConfigs := [("arm", armSettings)],
    cachedContexts := [(("arm", ""), armContext)], nextCtxId := 1 }

/-- Witness for C7: the second call for "arm" returns the context cached by
the first call and the unchanged manager state. -/
theorem getPlanningContext_twice_identical_witness :
    getPlanningContext cachedManager "arm" "" = some (armContext, cachedManager) :=
  getPlanningContext_twice_identical freshManager "arm" "" armContext
    cachedManager rfl

/-- C8: `setPlannerConfigurations` replaces the entire configuration set and
invalidates all previously cached planning contexts: the cache is emptied,
and a subsequent `getPlanningContext` for a previously cached key (still
resolvable in the new set) performs a fresh build — it returns a newly
constructed context distinct from the old instance, not the old instance. -/
theorem setPlannerConfigurations_invalidates (st : ManagerState)
    (config factory_type : String) (ctx : PlanningContext)
    (pconfig : List (String × PlannerConfigurationSettings))
    (c : PlannerConfigurationSettings)
    (hcached : mapFind st.cachedContexts (config, factory_type) = some ctx)
    (hid : ctx.id < st.nextCtxId)
    (hcfg : mapFind pconfig config = some c) :
    (setPlannerConfigurations pconfig st).cachedContexts = [] ∧
    getPlanningContext (setPlannerConfigurations pconfig st) config factory_type =
      some ({ id := st.nextCtxId, configName := config,
              factoryType := factory_type },
        { plannerConfigs := pconfig
          cachedContexts := [((config, factory_type),
            { id := st.nextCtxId, configName := config,
              factoryType := factory_type })]
          nextCtxId := st.nextCtxId + 1 }) ∧
    ({ id := st.nextCtxId, configName := config,
       factoryType := factory_type } : PlanningContext) ≠ ctx := by
  refine ⟨rfl, ?_, ?_⟩
  · simp [getPlanningContext, setPlannerConfigurations, hcfg, mapFind, mapInsert]
  · intro hEq
    have h2 : st.nextCtxId = ctx.id := congrArg PlanningContext.id hEq
    omega

/-- The replacement configuration set used by the C8 witness. -/
def newArmSettings : PlannerConfigurationSettings :=
  { group := "arm", name := "arm", config := [("range", "3")] }

/-- Witness for C8: replacing the configuration set empties the cache, and
the next lookup for "arm" builds a fresh context distinct from the old
one. -/
theorem setPlannerConfigurations_invalidates_witness :
    (setPlannerConfigurations [("arm", newArmSettings)] cachedManager).cachedContexts = [] ∧
    getPlanningContext (setPlannerConfigurations [("arm", newArmSettings)]
        cachedManager) "arm" "" =
      some ({ id := 1, configName := "arm", factoryType := "" },
        { plannerConfigs := [("arm", newArmSettings)]
          cachedContexts := [(("arm", ""),
            { id := 1, configName := "arm", factoryType := "" })]
          nextCtxId := 2 }) ∧
    ({ id := 1, configName := "arm", factoryType := "" } : PlanningContext) ≠
      armContext :=
  setPlannerConfigurations_invalidates cachedManager "arm" "" armContext
    [("arm", newArmSettings)] newArmSettings rfl (by decide) rfl

end OmplInterface
